import Mathlib

set_option maxRecDepth 40000

/-!
Verification of `add_license_headers.py` (compose-booster).

The script is embedded shallowly: file text is a `List Char`, file bytes a
`List Nat`, and each Python helper (`has_license_header`,
`add_header_to_file`'s content transform, `find_source_files`,
`should_skip_directory`, `Path.suffix`, `Path.with_suffix`, `str.find`,
`str.strip`, …) becomes an executable Lean definition translated from the
source.  Filesystem effects are made explicit: `add_header_to_file` returns
the boolean the Python function returns together with the chronological list
of filesystem operations (backup copies and writes) it performs.
-/

/-- Whitespace predicate used by Python's `str.strip` / `str.lstrip`:
true on the ASCII and Latin-1 whitespace characters.  (Other Unicode
space characters such as U+2000 are also stripped by Python but never
appear in the strings this development manipulates.) -/
def pyIsSpace (c : Char) : Bool :=
  c = ' ' || c = '\t' || c = '\n' || c = '\x0b' || c = '\x0c' || c = '\r' ||
  c = '\x1c' || c = '\x1d' || c = '\x1e' || c = '\x1f' || c = '\x85' || c = '\xa0'

/-- Python `str.lstrip()` (no argument): drop leading whitespace. -/
def pyLstrip (l : List Char) : List Char :=
  l.dropWhile pyIsSpace

/-- Python `str.rstrip()` (no argument): drop trailing whitespace. -/
def pyRstrip (l : List Char) : List Char :=
  (l.reverse.dropWhile pyIsSpace).reverse

/-- Python `str.strip()` (no argument): drop leading and trailing whitespace. -/
def pyStrip (l : List Char) : List Char :=
  pyRstrip (pyLstrip l)

/-- Python substring membership test `sub in s` (`str.__contains__`):
true when `pat` occurs contiguously inside `l`. -/
def containsSub (pat l : List Char) : Bool :=
  (List.range (l.length + 1)).any (fun i => pat.isPrefixOf (l.drop i))

/-- Python `s.find(sub)`: index of the first occurrence of `pat` in `l`,
`-1` when there is none. -/
def pyFindSub (l pat : List Char) : Int :=
  match (List.range (l.length + 1)).find? (fun i => pat.isPrefixOf (l.drop i)) with
  | some i => (i : Int)
  | none => -1

/-- Python `s.find(ch, start)` for a single-character needle and a
non-negative start index: index of the first occurrence of `ch` at or after
`start`, `-1` when there is none. -/
def pyFindCharFrom (l : List Char) (ch : Char) (start : Nat) : Int :=
  match (l.drop start).findIdx? (fun c => c == ch) with
  | some j => ((start + j : Nat) : Int)
  | none => -1

/-- Python `str.startswith`: `pat.isPrefixOf l`. -/
def pyStartswith (l pat : List Char) : Bool :=
  pat.isPrefixOf l

/- ------------------------------------------------------------------ -/
/- Static configuration of add_license_headers.py (lines 26-84).       -/
/- ------------------------------------------------------------------ -/

/-- `HEADER_TS_JS` (lines 26-32 of the source). -/
def HEADER_TS_JS : List Char :=
  "// This Source Code Form is subject to the terms of the Mozilla Public\n// License, v. 2.0. If a copy of the MPL was not distributed with this\n// file, You can obtain one at https://mozilla.org/MPL/2.0/.\n//\n// Copyright (c) 2025 Stephen Le\n\n".data

/-- `HEADER_HTML` (lines 34-42 of the source). -/
def HEADER_HTML : List Char :=
  "<!--\n  This Source Code Form is subject to the terms of the Mozilla Public\n  License, v. 2.0. If a copy of the MPL was not distributed with this\n  file, You can obtain one at https://mozilla.org/MPL/2.0/.\n\n  Copyright (c) 2025 Stephen Le\n-->\n\n".data

/-- `HEADER_CSS` (lines 44-52 of the source). -/
def HEADER_CSS : List Char :=
  "/*\n * This Source Code Form is subject to the terms of the Mozilla Public\n * License, v. 2.0. If a copy of the MPL was not distributed with this\n * file, You can obtain one at https://mozilla.org/MPL/2.0/.\n *\n * Copyright (c) 2025 Stephen Le\n */\n\n".data

/-- `EXCLUDED_DIRS` (lines 55-65), in source order. -/
def EXCLUDED_DIRS : List (List Char) :=
  [ "node_modules".data, ".vite".data, "out".data, "dist".data, ".git".data,
    "__pycache__".data, ".cache".data, "coverage".data, "build".data]

/-- `SUPPORTED_EXTENSIONS` (lines 68-75): extension-to-header mapping,
in dict insertion order. -/
def SUPPORTED_EXTENSIONS : List (List Char × List Char) :=
  [ ( ".ts".data, HEADER_TS_JS), ( ".js".data, HEADER_TS_JS),
    ( ".tsx".data, HEADER_TS_JS), ( ".jsx".data, HEADER_TS_JS),
    ( ".html".data, HEADER_HTML), ( ".css".data, HEADER_CSS)]

/-- The keys of `SUPPORTED_EXTENSIONS`, in iteration order. -/
def SUPPORTED_SUFFIXES : List (List Char) :=
  SUPPORTED_EXTENSIONS.map Prod.fst

/-- `EXCLUDED_FILES` (lines 78-84). -/
def EXCLUDED_FILES : List (List Char) :=
  [ "vite.config.ts".data, "vite.main.config.ts".data,
    "vite.preload.config.ts".data, "vite.renderer.config.ts".data,
    "forge.config.ts".data]

/-- The four indicator strings of `has_license_header` (lines 95-100),
in source order. -/
def indicators : List (List Char) :=
  [ "Mozilla Public License".data, "MPL".data,
    "https://mozilla.org/MPL/2.0".data, "Copyright (c) 2025 Stephen Le".data]

/-- `has_license_header` (lines 92-101): true when any indicator occurs in
the first 500 characters of the content. -/
def has_license_header (content : List Char) : Bool :=
  indicators.any (fun ind => containsSub ind (content.take 500))

/- ------------------------------------------------------------------ -/
/- Bridging lemmas for the Python substring test.                      -/
/- ------------------------------------------------------------------ -/

theorem containsSub_iff (pat l : List Char) : containsSub pat l = true ↔ pat <:+: l := by
  unfold containsSub
  rw [List.any_eq_true]
  constructor
  · rintro ⟨i, -, hpre⟩
    rw [List.isPrefixOf_iff_prefix] at hpre
    exact List.IsInfix.trans (List.IsPrefix.isInfix hpre)
      (List.IsSuffix.isInfix (List.drop_suffix i l))
  · rintro ⟨s, t, hst⟩
    refine ⟨s.length, ?_, ?_⟩
    · rw [List.mem_range]
      have hlen : l.length = s.length + (pat.length + t.length) := by
        rw [← hst]; simp [Nat.add_assoc]
      omega
    · rw [List.isPrefixOf_iff_prefix]
      have hd : l.drop s.length = pat ++ t := by
        rw [← hst, List.append_assoc]
        exact List.drop_left s (pat ++ t)
      exact ⟨t, hd.symm⟩

theorem pyFindCharFrom_found (l : List Char) (ch : Char) (start j : Nat)
    (h : (l.drop start).findIdx? (fun c => c == ch) = some j) :
    pyFindCharFrom l ch start = ((start + j : Nat) : Int) := by
  unfold pyFindCharFrom
  rw [h]

theorem pyFindCharFrom_none (l : List Char) (ch : Char) (start : Nat)
    (h : ch ∉ l.drop start) :
    pyFindCharFrom l ch start = -1 := by
  unfold pyFindCharFrom
  have : (l.drop start).findIdx? (fun c => c == ch) = none := by
    rw [List.findIdx?_eq_none_iff]
    intro x hx
    simp only [beq_eq_false_iff_ne, ne_eq]
    rintro rfl
    exact h hx
  rw [this]

/- ------------------------------------------------------------------ -/
/- Path helpers (pathlib semantics used by the script).                -/
/- ------------------------------------------------------------------ -/

/-- `Path.name`: the final path component (everything after the last `/`). -/
def pyName (p : List Char) : List Char :=
  (p.reverse.takeWhile (fun c => c ≠ '/')).reverse

/-- Python `str.rfind(ch)`: index of the last occurrence of `ch`, `-1` if
absent. -/
def pyRFindChar (l : List Char) (ch : Char) : Int :=
  match l.reverse.findIdx? (fun c => c == ch) with
  | some j => ((l.length - 1 - j : Nat) : Int)
  | none => -1

/-- `Path.suffix`: the extension of the final component, i.e. `name[i:]`
where `i = name.rfind('.')`, provided `0 < i < len(name) - 1`, else empty
(pathlib's definition). -/
def pySuffix (p : List Char) : List Char :=
  let n := pyName p
  let i := pyRFindChar n '.'
  if 0 < i ∧ i < (n.length : Int) - 1 then n.drop i.toNat else []

/-- `Path.with_suffix(s)`: replace the current suffix (drop its characters
from the end of the path) and append `s`.  When the current suffix is empty
this appends `s`, exactly as pathlib does. -/
def with_suffix (p s : List Char) : List Char :=
  p.take (p.length - (pySuffix p).length) ++ s

/-- `Path.parts` of a relative path: the `/`-separated components. -/
def pathParts (p : List Char) : List (List Char) :=
  p.splitOn '/'

/-- `should_skip_directory` (lines 87-89): true when some excluded directory
name occurs among the path's components. -/
def should_skip_directory (p : List Char) : Bool :=
  EXCLUDED_DIRS.any (fun d => (pathParts p).contains d)

/- ------------------------------------------------------------------ -/
/- The content transform of add_header_to_file (lines 138-151).        -/
/- ------------------------------------------------------------------ -/

/-- The literal marker searched for in HTML files. -/
def doctypeMarker : List Char :=
  "<!DOCTYPE".data

/-- Line 143: `content.strip().startswith('<!DOCTYPE')`. -/
def startsWithDoctype (content : List Char) : Bool :=
  pyStartswith (pyStrip content) doctypeMarker

/-- Line 145: `doctype_end = content.find('>', content.find('<!DOCTYPE')) + 1`.
This is only evaluated under the `startsWithDoctype` guard, where
`content.find('<!DOCTYPE')` is non-negative, so taking `toNat` of it is
faithful; the final `toNat` maps the not-found value `-1 + 1 = 0` to slice
index `0`, as in Python. -/
def doctype_end (content : List Char) : Nat :=
  (pyFindCharFrom content '>' (pyFindSub content doctypeMarker).toNat + 1).toNat

/-- The header selected for an extension: `SUPPORTED_EXTENSIONS[suffix]`
(line 139).  Total function; the script only evaluates it for supported
suffixes, where the lookup succeeds. -/
def headerFor (ext : List Char) : List Char :=
  match SUPPORTED_EXTENSIONS.lookup ext with
  | some h => h
  | none => []

/-- Lines 138-151: the new content computed for a file of extension `ext`
with text `content` (only reached when no license header was detected). -/
def new_content (ext content : List Char) : List Char :=
  let header := headerFor ext
  if ext = ".html".data then
    if startsWithDoctype content then
      content.take (doctype_end content) ++
        '\n' :: (header ++ pyLstrip (content.drop (doctype_end content)))
    else
      header ++ content
  else
    header ++ content

/- ------------------------------------------------------------------ -/
/- Encodings (lines 117-131 and 164-166).                              -/
/- ------------------------------------------------------------------ -/

/-- Is `b` a UTF-8 continuation byte (`0x80..0xBF`)? -/
def utf8Cont (b : Nat) : Bool :=
  0x80 ≤ b && b ≤ 0xBF

/-- Strict UTF-8 decoding of a byte list, as Python's `utf-8` codec:
rejects truncated sequences, stray continuation bytes, overlong forms,
surrogates and code points above U+10FFFF. -/
def utf8Decode : List Nat → Option (List Char)
  | [] => some []
  | b :: bs =>
    if b ≤ 0x7F then
      (utf8Decode bs).map (fun cs => Char.ofNat b :: cs)
    else if 0xC2 ≤ b && b ≤ 0xDF then
      match bs with
      | b1 :: bs1 =>
        if utf8Cont b1 then
          (utf8Decode bs1).map (fun cs => Char.ofNat ((b - 0xC0) * 64 + (b1 - 0x80)) :: cs)
        else none
      | [] => none
    else if 0xE0 ≤ b && b ≤ 0xEF then
      match bs with
      | b1 :: b2 :: bs2 =>
        if (if b = 0xE0 then 0xA0 ≤ b1 && b1 ≤ 0xBF
            else if b = 0xED then 0x80 ≤ b1 && b1 ≤ 0x9F
            else utf8Cont b1) && utf8Cont b2 then
          (utf8Decode bs2).map (fun cs =>
            Char.ofNat ((b - 0xE0) * 4096 + (b1 - 0x80) * 64 + (b2 - 0x80)) :: cs)
        else none
      | _ => none
    else if 0xF0 ≤ b && b ≤ 0xF4 then
      match bs with
      | b1 :: b2 :: b3 :: bs3 =>
        if (if b = 0xF0 then 0x90 ≤ b1 && b1 ≤ 0xBF
            else if b = 0xF4 then 0x80 ≤ b1 && b1 ≤ 0x8F
            else utf8Cont b1) && utf8Cont b2 && utf8Cont b3 then
          (utf8Decode bs3).map (fun cs =>
            Char.ofNat ((b - 0xF0) * 262144 + (b1 - 0x80) * 4096 +
              (b2 - 0x80) * 64 + (b3 - 0x80)) :: cs)
        else none
      | _ => none
    else none

/-- Latin-1 decoding: every byte maps to the code point of the same value,
so decoding never fails (Python's `latin-1` codec). -/
def latin1Decode (bs : List Nat) : List Char :=
  bs.map Char.ofNat

/-- UTF-8 encoding of one character (Python's `utf-8` codec on write). -/
def utf8EncodeChar (c : Char) : List Nat :=
  let n := c.toNat
  if n ≤ 0x7F then [n]
  else if n ≤ 0x7FF then [0xC0 + n / 64, 0x80 + n % 64]
  else if n ≤ 0xFFFF then [0xE0 + n / 4096, 0x80 + n / 64 % 64, 0x80 + n % 64]
  else [0xF0 + n / 262144, 0x80 + n / 4096 % 64, 0x80 + n / 64 % 64, 0x80 + n % 64]

/-- UTF-8 encoding of a text (used by the write at lines 164-166). -/
def utf8Encode (cs : List Char) : List Nat :=
  cs.foldr (fun c acc => utf8EncodeChar c ++ acc) []

/-- Lines 117-131: read the file's bytes as text, first as UTF-8 and, when
that fails, with the `latin-1` fallback (which always succeeds, so the
warning path at line 126 is unreachable for decoding reasons). -/
def readText (bs : List Nat) : List Char :=
  match utf8Decode bs with
  | some cs => cs
  | none => latin1Decode bs

/- ------------------------------------------------------------------ -/
/- add_header_to_file (lines 104-171) with explicit effects.           -/
/- ------------------------------------------------------------------ -/

/-- A filesystem side effect performed by `add_header_to_file`, in
chronological order: `copy` is the backup `shutil.copy2` (line 160), which
duplicates the source file's bytes; `write` is the overwrite of the file
with the UTF-8 encoding of the new text (lines 164-166). -/
inductive FsOp where
  | copy (src dst : List Char) (bytes : List Nat)
  | write (p : List Char) (bytes : List Nat)
deriving DecidableEq, Repr

/-- `add_header_to_file` (lines 104-171).  Inputs: the file's path and its
on-disk bytes, the two flags, and `write_ok`, which is true when the write
at lines 164-166 succeeds and false when it raises.  Output: the boolean
the Python function returns, paired with the chronological list of
filesystem operations performed.  (A read I/O error and a failing backup
copy are not modelled; decoding never fails because of the latin-1
fallback.) -/
def add_header_to_file (p : List Char) (bytes : List Nat)
    (dry_run backup write_ok : Bool) : Bool × List FsOp :=
  if pySuffix p ∉ SUPPORTED_SUFFIXES then (false, [])
  else if pyName p ∈ EXCLUDED_FILES then (false, [])
  else
    let content := readText bytes
    if has_license_header content then (false, [])
    else
      let new := new_content (pySuffix p) content
      if dry_run then (true, [])
      else
        let backup_ops :=
          if backup then
            [FsOp.copy p (with_suffix p (pySuffix p ++ ".bak".data)) bytes]
          else []
        if write_ok then (true, backup_ops ++ [FsOp.write p (utf8Encode new)])
        else (false, backup_ops)

/-- The per-run counters accumulated by `main` (lines 250-263). -/
structure Summary where
  modified : Nat
  skipped : Nat
  errors : Nat
deriving DecidableEq, Repr

/-- One iteration of the loop at lines 254-263: `add_header_to_file` raised
no exception in the modelled behaviours, so its boolean decides between the
modified and skipped counters. -/
def processOne (dry_run backup : Bool) (s : Summary)
    (f : List Char × List Nat × Bool) : Summary :=
  if (add_header_to_file f.1 f.2.1 dry_run backup f.2.2).1 then
    { s with modified := s.modified + 1 }
  else
    { s with skipped := s.skipped + 1 }

/-- The loop of `main` over the discovered files (lines 250-263).  Each
file is given as (path, bytes, write succeeds?). -/
def processAll (files : List (List Char × List Nat × Bool))
    (dry_run backup : Bool) : Summary :=
  files.foldl (processOne dry_run backup) ⟨0, 0, 0⟩

/-- Lines 287-288: the process exit code, 1 when the error counter is
nonzero and 0 otherwise. -/
def exit_code (s : Summary) : Nat :=
  if s.errors > 0 then 1 else 0

/- ------------------------------------------------------------------ -/
/- find_source_files (lines 174-190).                                  -/
/- ------------------------------------------------------------------ -/

/-- One pass of the loop body at lines 178-188 for a single extension:
`root_dir.rglob('*<ext>')` yields the tree's files whose name ends in
`ext`, and the two `continue` guards drop excluded directories and
filenames.  The tree is modelled as the list of file paths under the root
in the (arbitrary) order the filesystem enumerates them. -/
def globFilter (ext : List Char) (tree : List (List Char)) : List (List Char) :=
  tree.filter (fun p =>
    ext.isSuffixOf (pyName p) && !should_skip_directory p &&
      !EXCLUDED_FILES.contains (pyName p))

/-- The comparison Python's `sorted` uses on paths: lexicographic order on
the path string, as a Bool-valued function. -/
def listCharLeB : List Char → List Char → Bool
  | [], _ => true
  | _ :: _, [] => false
  | a :: as, b :: bs =>
    if a < b then true else if b < a then false else listCharLeB as bs

/-- The path order as a relation. -/
def pathLe (a b : List Char) : Prop :=
  listCharLeB a b = true

instance : DecidableRel pathLe :=
  fun a b => decEq (listCharLeB a b) true

/-- `find_source_files` (lines 174-190): for each supported extension in
dict order, the matching non-excluded files of the tree, then `sorted`.
Python's `sorted` is modelled by insertion sort; under the antisymmetric
total order `pathLe` every sorting algorithm returns the same list, so the
model is faithful regardless of which algorithm CPython uses. -/
def find_source_files (tree : List (List Char)) : List (List Char) :=
  List.insertionSort pathLe
    (globFilter ".ts".data tree ++ (globFilter ".js".data tree ++
     (globFilter ".tsx".data tree ++ (globFilter ".jsx".data tree ++
     (globFilter ".html".data tree ++ globFilter ".css".data tree)))))

/- ------------------------------------------------------------------ -/
/- The per-file content transform of one whole run.                    -/
/- ------------------------------------------------------------------ -/

/-- The effect of one successful run on the text of one processed file of
extension `ext` (lines 133-168): unchanged when a license header is
detected, otherwise replaced by `new_content`. -/
def processContent (ext content : List Char) : List Char :=
  if has_license_header content then content else new_content ext content

/- ------------------------------------------------------------------ -/
/- Shared concrete inputs for witnesses.                               -/
/- ------------------------------------------------------------------ -/

/-- Byte representation of an ASCII string (every character below 0x80). -/
def asciiBytes (s : String) : List Nat :=
  s.data.map Char.toNat

/-- The spec's own HTML example content. -/
def exampleHtml : List Char :=
  "<!DOCTYPE html>\n<html></html>".data

/-- A small TypeScript example content. -/
def exampleTs : List Char :=
  "const x = 1;\n".data

/-- An example path of a supported, non-excluded TypeScript file. -/
def examplePath : List Char :=
  "src/a.ts".data

/- ------------------------------------------------------------------ -/
/- C4: has_license_header looks for the four indicators in the first   -/
/- 500 characters and at nothing else.                                 -/
/- ------------------------------------------------------------------ -/

/-- C4: for every content, `has_license_header` is true iff one of the four
literal indicator substrings occurs in the first 500 characters, and the
result only depends on those first 500 characters. -/
theorem has_license_header_first500 (c : List Char) :
    (has_license_header c = true ↔
      ( "Mozilla Public License".data <:+: c.take 500 ∨
        "MPL".data <:+: c.take 500 ∨
        "https://mozilla.org/MPL/2.0".data <:+: c.take 500 ∨
        "Copyright (c) 2025 Stephen Le".data <:+: c.take 500)) ∧
    has_license_header c = has_license_header (c.take 500) := by
  constructor
  · unfold has_license_header indicators
    simp only [List.any_cons, List.any_nil, Bool.or_eq_true, Bool.or_eq_false_iff,
      containsSub_iff]
    tauto
  · unfold has_license_header
    rw [List.take_take]
    norm_num

/- ------------------------------------------------------------------ -/
/- C3: the computed new content.                                       -/
/- ------------------------------------------------------------------ -/

/-- C3: for content without an existing header, the new content is: for an
HTML file whose stripped content begins with the DOCTYPE marker and whose
first `>` at or after that marker sits at index `j`, the content up to and
including that `>`, one newline, the HTML header, and the rest of the
content with leading whitespace stripped; for every other supported
extension, and for HTML without the marker, the category's header followed
by the unmodified content. -/
theorem new_content_spec :
    (∀ (c : List Char) (j : Nat), has_license_header c = false →
      startsWithDoctype c = true →
      pyFindCharFrom c '>' (pyFindSub c doctypeMarker).toNat = (j : Int) →
      new_content ".html".data c =
        c.take (j + 1) ++ '\n' :: (HEADER_HTML ++ pyLstrip (c.drop (j + 1)))) ∧
    (∀ ext c, ext ∈ SUPPORTED_SUFFIXES → has_license_header c = false →
      (ext = ".html".data → startsWithDoctype c = false) →
      new_content ext c = headerFor ext ++ c) := by
  constructor
  · intro c j hno hdoc hfind
    have hde : doctype_end c = j + 1 := by
      unfold doctype_end
      rw [hfind]
      omega
    unfold new_content
    rw [if_pos rfl, if_pos hdoc, hde]
    have hh : headerFor ".html".data = HEADER_HTML := by decide
    rw [hh]
  · intro ext c hmem hno hnotdoc
    unfold new_content
    by_cases hext : ext = ".html".data
    · rw [if_pos hext, if_neg]
      rw [hnotdoc hext]
      exact Bool.false_ne_true
    · rw [if_neg hext]

/-- Witness for C3 at the spec's own HTML example and at a TypeScript
file. -/
theorem new_content_spec_witness :
    new_content ".html".data exampleHtml =
      exampleHtml.take 15 ++ '\n' :: (HEADER_HTML ++ pyLstrip (exampleHtml.drop 15)) ∧
    new_content ".ts".data exampleTs = headerFor ".ts".data ++ exampleTs := by
  constructor
  · exact new_content_spec.1 exampleHtml 14 (by decide) (by decide) (by decide)
  · exact new_content_spec.2 ( ".ts".data) exampleTs (by decide) (by decide)
      (by intro h; cases h)

/- ------------------------------------------------------------------ -/
/- C9: HTML with a DOCTYPE marker but no terminating '>'.              -/
/- ------------------------------------------------------------------ -/

/-- C9: for an HTML content whose stripped text begins with the DOCTYPE
marker but which has no `>` at or after the marker, the computed new
content is a single newline, the HTML header, and the original content
with leading whitespace stripped — the header lands in front of the
unterminated declaration with a stray leading newline. -/
theorem new_content_unterminated_doctype (c : List Char)
    (hno : has_license_header c = false)
    (hdoc : startsWithDoctype c = true)
    (hgt : '>' ∉ c.drop (pyFindSub c doctypeMarker).toNat) :
    new_content ".html".data c = '\n' :: (HEADER_HTML ++ pyLstrip c) := by
  have hf := pyFindCharFrom_none c '>' (pyFindSub c doctypeMarker).toNat hgt
  have hde : doctype_end c = 0 := by
    unfold doctype_end
    rw [hf]
    rfl
  unfold new_content
  rw [if_pos rfl, if_pos hdoc, hde]
  have hh : headerFor ".html".data = HEADER_HTML := by decide
  rw [hh]
  simp

/-- A DOCTYPE marker with no terminating `>`. -/
def exampleBrokenHtml : List Char :=
  "<!DOCTYPE html".data

/-- Witness for C9 at the concrete unterminated-DOCTYPE content. -/
theorem new_content_unterminated_doctype_witness :
    new_content ".html".data exampleBrokenHtml =
      '\n' :: (HEADER_HTML ++ pyLstrip exampleBrokenHtml) :=
  new_content_unterminated_doctype exampleBrokenHtml (by decide) (by decide)
    (by decide)

/- ------------------------------------------------------------------ -/
/- C7: dry-run performs no filesystem operation yet reports Modified.  -/
/- ------------------------------------------------------------------ -/

/-- A file record (path, bytes, write-would-succeed) that the script would
actually modify: supported extension, not an excluded filename, and no
license header detected in its decoded text. -/
def qualifies (f : List Char × List Nat × Bool) : Prop :=
  pySuffix f.1 ∈ SUPPORTED_SUFFIXES ∧ pyName f.1 ∉ EXCLUDED_FILES ∧
    has_license_header (readText f.2.1) = false

instance (f : List Char × List Nat × Bool) : Decidable (qualifies f) := by
  unfold qualifies
  infer_instance

theorem add_header_dry_ops (p : List Char) (bytes : List Nat)
    (backup write_ok : Bool) :
    (add_header_to_file p bytes true backup write_ok).2 = [] := by
  unfold add_header_to_file
  split
  · rfl
  · split
    · rfl
    · simp [apply_ite]

theorem add_header_dry_ret (p : List Char) (bytes : List Nat)
    (backup write_ok : Bool) (h1 : pySuffix p ∈ SUPPORTED_SUFFIXES)
    (h2 : pyName p ∉ EXCLUDED_FILES)
    (h3 : has_license_header (readText bytes) = false) :
    (add_header_to_file p bytes true backup write_ok).1 = true := by
  unfold add_header_to_file
  rw [if_neg (not_not_intro h1), if_neg h2]
  simp [h3]

theorem processOne_modified_le (dry_run backup : Bool) (s : Summary)
    (f : List Char × List Nat × Bool) :
    s.modified ≤ (processOne dry_run backup s f).modified := by
  unfold processOne
  split
  · simp
  · simp

theorem foldl_modified_le (dry_run backup : Bool) :
    ∀ (files : List (List Char × List Nat × Bool)) (s : Summary),
      s.modified ≤ (files.foldl (processOne dry_run backup) s).modified := by
  intro files
  induction files with
  | nil => intro s; simp
  | cons f fs ih =>
    intro s
    rw [List.foldl_cons]
    exact le_trans (processOne_modified_le dry_run backup s f) (ih _)

theorem foldl_dry_modified_pos (backup : Bool) :
    ∀ (files : List (List Char × List Nat × Bool)) (s : Summary),
      (∃ f ∈ files, qualifies f) →
      s.modified < (files.foldl (processOne true backup) s).modified := by
  intro files
  induction files with
  | nil => rintro s ⟨f, hf, -⟩; cases hf
  | cons f fs ih =>
    rintro s ⟨g, hg, hq⟩
    rw [List.foldl_cons]
    rcases List.mem_cons.mp hg with rfl | hg'
    · obtain ⟨q1, q2, q3⟩ := hq
      have hret := add_header_dry_ret g.1 g.2.1 backup g.2.2 q1 q2 q3
      have hone : processOne true backup s g =
          { s with modified := s.modified + 1 } := by
        unfold processOne
        rw [if_pos hret]
      rw [hone]
      exact lt_of_lt_of_le (Nat.lt_succ_self s.modified)
        (foldl_modified_le true backup fs { s with modified := s.modified + 1 })
    · exact lt_of_le_of_lt (processOne_modified_le true backup s f)
        (ih _ ⟨g, hg', hq⟩)

/-- C7: with `dry_run` true, `add_header_to_file` performs no filesystem
operation whatever the backup flag, returns True (Modified) for every
qualifying file, and a run over a file list containing a qualifying file
reports a nonzero modified count. -/
theorem dry_run_no_ops_reports_modified :
    (∀ (p : List Char) (bytes : List Nat) (backup write_ok : Bool),
      (add_header_to_file p bytes true backup write_ok).2 = []) ∧
    (∀ (p : List Char) (bytes : List Nat) (backup write_ok : Bool),
      pySuffix p ∈ SUPPORTED_SUFFIXES → pyName p ∉ EXCLUDED_FILES →
      has_license_header (readText bytes) = false →
      (add_header_to_file p bytes true backup write_ok).1 = true) ∧
    (∀ (files : List (List Char × List Nat × Bool)) (backup : Bool),
      (∃ f ∈ files, qualifies f) →
      0 < (processAll files true backup).modified) := by
  refine ⟨add_header_dry_ops, add_header_dry_ret, ?_⟩
  intro files backup h
  exact foldl_dry_modified_pos backup files ⟨0, 0, 0⟩ h

/-- Witness for C7 at a concrete TypeScript file. -/
theorem dry_run_no_ops_reports_modified_witness :
    (add_header_to_file examplePath (asciiBytes "const x = 1;\n") true true
      true).2 = [] ∧
    (add_header_to_file examplePath (asciiBytes "const x = 1;\n") true true
      true).1 = true ∧
    0 < (processAll [(examplePath, asciiBytes "const x = 1;\n", true)] true
      false).modified := by
  refine ⟨dry_run_no_ops_reports_modified.1 _ _ _ _, ?_, ?_⟩
  · exact dry_run_no_ops_reports_modified.2.1 examplePath
      (asciiBytes "const x = 1;\n") true true (by decide) (by decide) (by decide)
  · refine dry_run_no_ops_reports_modified.2.2 _ false ?_
    exact ⟨(examplePath, asciiBytes "const x = 1;\n", true), by simp, by decide⟩

/- ------------------------------------------------------------------ -/
/- C8: backup goes to <path>.bak with the original bytes, before the   -/
/- write.                                                              -/
/- ------------------------------------------------------------------ -/

theorem pyName_suffix (p : List Char) : pyName p <:+ p := by
  unfold pyName
  have h : (p.reverse.takeWhile (fun c => c ≠ '/')) <+: p.reverse :=
    List.takeWhile_prefix _
  have h2 : (p.reverse.takeWhile (fun c => c ≠ '/')).reverse <:+ p.reverse.reverse :=
    List.reverse_suffix.mpr h
  rwa [List.reverse_reverse] at h2

theorem pySuffix_suffix (p : List Char) : pySuffix p <:+ p := by
  show (if 0 < pyRFindChar (pyName p) '.' ∧
      pyRFindChar (pyName p) '.' < ((pyName p).length : Int) - 1 then
    (pyName p).drop (pyRFindChar (pyName p) '.').toNat else []) <:+ p
  split
  · exact List.IsSuffix.trans (List.drop_suffix _ _) (pyName_suffix p)
  · exact List.nil_suffix

theorem with_suffix_of_suffix (p b : List Char) :
    with_suffix p (pySuffix p ++ b) = p ++ b := by
  unfold with_suffix
  obtain ⟨t, ht⟩ := pySuffix_suffix p
  generalize hs : pySuffix p = s at ht ⊢
  subst ht
  have hlen : (t ++ s).length - s.length = t.length := by simp
  rw [hlen, List.take_left, List.append_assoc]

/-- C8: when a qualifying file is modified with backup enabled and dry-run
off, the operations are exactly a copy of the original bytes to the path
obtained by appending `.bak` after the existing extension, followed by the
overwrite — the backup precedes the write and is byte-identical to the
original. -/
theorem backup_then_write (p : List Char) (bytes : List Nat)
    (h1 : pySuffix p ∈ SUPPORTED_SUFFIXES) (h2 : pyName p ∉ EXCLUDED_FILES)
    (h3 : has_license_header (readText bytes) = false) :
    (add_header_to_file p bytes false true true).2 =
      [FsOp.copy p (p ++ ".bak".data) bytes,
       FsOp.write p (utf8Encode (new_content (pySuffix p) (readText bytes)))] := by
  unfold add_header_to_file
  rw [if_neg (not_not_intro h1), if_neg h2]
  simp only [h3, Bool.false_eq_true, if_false, if_true]
  rw [with_suffix_of_suffix]
  simp

/-- Witness for C8 at a concrete TypeScript file. -/
theorem backup_then_write_witness :
    (add_header_to_file examplePath (asciiBytes "const x = 1;\n") false true
      true).2 =
      [FsOp.copy examplePath (examplePath ++ ".bak".data)
        (asciiBytes "const x = 1;\n"),
       FsOp.write examplePath (utf8Encode (new_content (pySuffix examplePath)
        (readText (asciiBytes "const x = 1;\n"))))] :=
  backup_then_write examplePath (asciiBytes "const x = 1;\n") (by decide)
    (by decide) (by decide)

/- ------------------------------------------------------------------ -/
/- C1: what actually happens on a write failure.                       -/
/- ------------------------------------------------------------------ -/

/-- C1 (divergence exhibit): for a qualifying TypeScript file whose
overwrite fails, `add_header_to_file` returns False after performing no
write, so the run counts the file as skipped — not as an error — and the
process exit code is 0.  (The claim and the spec require Errored, an error
count of 1 and exit code 1; the script's own `[ERROR]` log line at line 170
contradicts the False return that follows it.) -/
theorem write_failure_counted_as_skipped :
    add_header_to_file examplePath (asciiBytes "const x = 1;\n") false false
      false = (false, []) ∧
    processAll [(examplePath, asciiBytes "const x = 1;\n", false)] false
      false = ⟨0, 1, 0⟩ ∧
    exit_code (processAll [(examplePath, asciiBytes "const x = 1;\n", false)]
      false false) = 0 := by
  refine ⟨by decide, by decide, by decide⟩

/- ------------------------------------------------------------------ -/
/- C10: the rewrite is always UTF-8, even after a latin-1 read.        -/
/- ------------------------------------------------------------------ -/

/-- Bytes that are not valid UTF-8: an ASCII statement followed by a lone
0xE9 byte (latin-1 for é). -/
def badBytes : List Nat :=
  asciiBytes "const x = 1;" ++ [0xE9]

/-- C10: whenever UTF-8 decoding of the file's bytes fails, the text is the
latin-1 decoding, and the write emits the UTF-8 encoding of header plus
that text; at the concrete `badBytes` the written tail differs from the
original bytes (0xE9 becomes 0xC3 0xA9), so bytes outside the inserted
header change. -/
theorem rewrite_is_utf8 :
    (∀ (p : List Char) (bytes : List Nat), utf8Decode bytes = none →
      pySuffix p ∈ SUPPORTED_SUFFIXES → pyName p ∉ EXCLUDED_FILES →
      has_license_header (latin1Decode bytes) = false →
      (add_header_to_file p bytes false false true).2 =
        [FsOp.write p (utf8Encode (new_content (pySuffix p)
          (latin1Decode bytes)))]) ∧
    ((add_header_to_file examplePath badBytes false false true).2 =
      [FsOp.write examplePath (utf8Encode (HEADER_TS_JS ++
        latin1Decode badBytes))] ∧
     utf8Encode (HEADER_TS_JS ++ latin1Decode badBytes) ≠
       utf8Encode HEADER_TS_JS ++ badBytes) := by
  constructor
  · intro p bytes hdec h1 h2 h3
    have hrt : readText bytes = latin1Decode bytes := by
      unfold readText
      rw [hdec]
    unfold add_header_to_file
    rw [if_neg (not_not_intro h1), if_neg h2]
    simp only [hrt, h3, Bool.false_eq_true, if_false, if_true]
    simp
  · constructor
    · decide
    · decide

/-- Witness for C10's universally quantified part at the concrete path and
bytes. -/
theorem rewrite_is_utf8_witness :
    (add_header_to_file examplePath badBytes false false true).2 =
      [FsOp.write examplePath (utf8Encode (new_content (pySuffix examplePath)
        (latin1Decode badBytes)))] :=
  rewrite_is_utf8.1 examplePath badBytes (by decide) (by decide) (by decide)
    (by decide)

/- ------------------------------------------------------------------ -/
/- The lexicographic path order: total, transitive, antisymmetric.     -/
/- ------------------------------------------------------------------ -/

theorem listCharLeB_total (a : List Char) :
    ∀ b, listCharLeB a b = true ∨ listCharLeB b a = true := by
  induction a with
  | nil => intro b; left; rfl
  | cons x xs ih =>
    intro b
    cases b with
    | nil => right; rfl
    | cons y ys =>
      unfold listCharLeB
      rcases lt_trichotomy x y with h | h | h
      · left; rw [if_pos h]
      · subst h
        simp only [if_neg (lt_irrefl x)]
        exact ih ys
      · right; rw [if_pos h]

theorem listCharLeB_trans (a : List Char) :
    ∀ b c, listCharLeB a b = true → listCharLeB b c = true →
      listCharLeB a c = true := by
  induction a with
  | nil => intro b c _ _; rfl
  | cons x xs ih =>
    intro b c hab hbc
    cases b with
    | nil => cases hab
    | cons y ys =>
      cases c with
      | nil => cases hbc
      | cons z zs =>
        unfold listCharLeB at hab hbc ⊢
        rcases lt_trichotomy x y with hxy | hxy | hxy
        · rcases lt_trichotomy y z with hyz | hyz | hyz
          · rw [if_pos (lt_trans hxy hyz)]
          · subst hyz; rw [if_pos hxy]
          · rw [if_pos hyz, if_neg (asymm hyz)] at hbc; cases hbc
        · subst hxy
          rcases lt_trichotomy x z with hyz | hyz | hyz
          · rw [if_pos hyz]
          · subst hyz
            rw [if_neg (lt_irrefl x), if_neg (lt_irrefl x)] at hab hbc ⊢
            exact ih ys zs hab hbc
          · rw [if_pos hyz, if_neg (asymm hyz)] at hbc; cases hbc
        · rw [if_pos hxy, if_neg (asymm hxy)] at hab; cases hab

theorem listCharLeB_antisymm (a : List Char) :
    ∀ b, listCharLeB a b = true → listCharLeB b a = true → a = b := by
  induction a with
  | nil =>
    intro b _ hba
    cases b with
    | nil => rfl
    | cons y ys => cases hba
  | cons x xs ih =>
    intro b hab hba
    cases b with
    | nil => cases hab
    | cons y ys =>
      unfold listCharLeB at hab hba
      rcases lt_trichotomy x y with h | h | h
      · rw [if_pos h, if_neg (asymm h)] at hba; cases hba
      · subst h
        rw [if_neg (lt_irrefl x), if_neg (lt_irrefl x)] at hab hba
        rw [ih ys hab hba]
      · rw [if_pos h, if_neg (asymm h)] at hab; cases hab

instance : IsTotal (List Char) pathLe :=
  ⟨fun a b => listCharLeB_total a b⟩

instance : IsTrans (List Char) pathLe :=
  ⟨fun a b c => listCharLeB_trans a b c⟩

instance : IsAntisymm (List Char) pathLe :=
  ⟨fun a b => listCharLeB_antisymm a b⟩

/- ------------------------------------------------------------------ -/
/- C5: discovery is deduplicated, sorted, and deterministic.           -/
/- ------------------------------------------------------------------ -/

theorem suffix_total_of_common (s1 s2 n : List Char) (h1 : s1 <:+ n)
    (h2 : s2 <:+ n) : s1 <:+ s2 ∨ s2 <:+ s1 := by
  rw [← List.reverse_prefix] at h1 h2
  rcases List.prefix_or_prefix_of_prefix h1 h2 with h | h
  · left; rwa [List.reverse_prefix] at h
  · right; rwa [List.reverse_prefix] at h

theorem globFilter_disjoint {e1 e2 : List Char} (hne1 : ¬ e1 <:+ e2)
    (hne2 : ¬ e2 <:+ e1) (t : List (List Char)) :
    (globFilter e1 t).Disjoint (globFilter e2 t) := by
  intro p hp1 hp2
  have c1 := (List.mem_filter.mp hp1).2
  have c2 := (List.mem_filter.mp hp2).2
  simp only [Bool.and_eq_true, List.isSuffixOf_iff_suffix] at c1 c2
  rcases suffix_total_of_common e1 e2 (pyName p) c1.1.1 c2.1.1 with h | h
  · exact hne1 h
  · exact hne2 h

theorem globFilter_nodup (e : List Char) {t : List (List Char)}
    (h : t.Nodup) : (globFilter e t).Nodup :=
  List.Nodup.filter _ h

/-- The unsorted concatenation built by the loop at lines 178-188. -/
def candidateFiles (tree : List (List Char)) : List (List Char) :=
  globFilter ".ts".data tree ++ (globFilter ".js".data tree ++
    (globFilter ".tsx".data tree ++ (globFilter ".jsx".data tree ++
    (globFilter ".html".data tree ++ globFilter ".css".data tree))))

theorem find_source_files_eq_sort (tree : List (List Char)) :
    find_source_files tree = List.insertionSort pathLe (candidateFiles tree) := rfl

theorem candidateFiles_nodup {tree : List (List Char)} (h : tree.Nodup) :
    (candidateFiles tree).Nodup := by
  unfold candidateFiles
  have d : ∀ e1 e2 : List Char, ¬ e1 <:+ e2 → ¬ e2 <:+ e1 →
      (globFilter e1 tree).Disjoint (globFilter e2 tree) :=
    fun e1 e2 h1 h2 => globFilter_disjoint h1 h2 tree
  refine List.Nodup.append (globFilter_nodup _ h) ?_ ?_
  · refine List.Nodup.append (globFilter_nodup _ h) ?_ ?_
    · refine List.Nodup.append (globFilter_nodup _ h) ?_ ?_
      · refine List.Nodup.append (globFilter_nodup _ h) ?_ ?_
        · exact List.Nodup.append (globFilter_nodup _ h) (globFilter_nodup _ h)
            (d _ _ (by decide) (by decide))
        · rw [List.disjoint_append_right]
          exact ⟨d _ _ (by decide) (by decide), d _ _ (by decide) (by decide)⟩
      · rw [List.disjoint_append_right, List.disjoint_append_right]
        exact ⟨d _ _ (by decide) (by decide), d _ _ (by decide) (by decide),
          d _ _ (by decide) (by decide)⟩
    · rw [List.disjoint_append_right, List.disjoint_append_right,
        List.disjoint_append_right]
      exact ⟨d _ _ (by decide) (by decide), d _ _ (by decide) (by decide),
        d _ _ (by decide) (by decide), d _ _ (by decide) (by decide)⟩
  · rw [List.disjoint_append_right, List.disjoint_append_right,
      List.disjoint_append_right, List.disjoint_append_right]
    exact ⟨d _ _ (by decide) (by decide), d _ _ (by decide) (by decide),
      d _ _ (by decide) (by decide), d _ _ (by decide) (by decide),
      d _ _ (by decide) (by decide)⟩

theorem candidateFiles_perm {t1 t2 : List (List Char)} (h : t1.Perm t2) :
    (candidateFiles t1).Perm (candidateFiles t2) := by
  unfold candidateFiles globFilter
  exact ((h.filter _).append ((h.filter _).append ((h.filter _).append
    ((h.filter _).append ((h.filter _).append (h.filter _))))))

/-- C5: the discovered list has no duplicate path, is sorted in the
lexicographic path order, and two enumerations of the same tree (the same
files, possibly listed by the filesystem in different orders) produce the
identical sorted list. -/
theorem find_source_files_nodup_sorted_det (t1 t2 : List (List Char))
    (hnd : t1.Nodup) (hperm : t1.Perm t2) :
    (find_source_files t1).Nodup ∧
    List.Sorted pathLe (find_source_files t1) ∧
    find_source_files t1 = find_source_files t2 := by
  refine ⟨?_, ?_, ?_⟩
  · rw [find_source_files_eq_sort]
    exact ((List.perm_insertionSort pathLe _).nodup_iff).mpr
      (candidateFiles_nodup hnd)
  · rw [find_source_files_eq_sort]
    exact List.sorted_insertionSort pathLe _
  · rw [find_source_files_eq_sort, find_source_files_eq_sort]
    refine List.eq_of_perm_of_sorted ?_ (List.sorted_insertionSort pathLe _)
      (List.sorted_insertionSort pathLe _)
    exact (List.perm_insertionSort pathLe _).trans
      ((candidateFiles_perm hperm).trans
        (List.perm_insertionSort pathLe _).symm)

/-- Witness for C5 at a concrete two-file tree enumerated in two orders. -/
theorem find_source_files_nodup_sorted_det_witness :
    (find_source_files [ "b.ts".data, "a.ts".data]).Nodup ∧
    List.Sorted pathLe (find_source_files [ "b.ts".data, "a.ts".data]) ∧
    find_source_files [ "b.ts".data, "a.ts".data] =
      find_source_files [ "a.ts".data, "b.ts".data] :=
  find_source_files_nodup_sorted_det [ "b.ts".data, "a.ts".data]
    [ "a.ts".data, "b.ts".data] (by decide) (by decide)

/- ------------------------------------------------------------------ -/
/- C6: exclusion rules hold for every discovered path.                 -/
/- ------------------------------------------------------------------ -/

theorem mem_globFilter {e p : List Char} {t : List (List Char)}
    (h : p ∈ globFilter e t) :
    should_skip_directory p = false ∧
      EXCLUDED_FILES.contains (pyName p) = false := by
  have hc := (List.mem_filter.mp h).2
  simp only [Bool.and_eq_true, Bool.not_eq_eq_eq_not, Bool.not_true] at hc
  exact ⟨hc.1.2, hc.2⟩

/-- C6: no discovered path has an excluded directory name among its
components, and no discovered path's final component is an excluded
filename. -/
theorem find_source_files_respects_exclusions (tree : List (List Char))
    (p : List Char) (hp : p ∈ find_source_files tree) :
    (∀ seg ∈ pathParts p, seg ∉ EXCLUDED_DIRS) ∧
      pyName p ∉ EXCLUDED_FILES := by
  rw [find_source_files_eq_sort,
    (List.perm_insertionSort pathLe (candidateFiles tree)).mem_iff] at hp
  have hbase : should_skip_directory p = false ∧
      EXCLUDED_FILES.contains (pyName p) = false := by
    unfold candidateFiles at hp
    rcases List.mem_append.mp hp with h | h
    · exact mem_globFilter h
    rcases List.mem_append.mp h with h | h
    · exact mem_globFilter h
    rcases List.mem_append.mp h with h | h
    · exact mem_globFilter h
    rcases List.mem_append.mp h with h | h
    · exact mem_globFilter h
    rcases List.mem_append.mp h with h | h
    · exact mem_globFilter h
    · exact mem_globFilter h
  constructor
  · intro seg hseg hexc
    have := hbase.1
    unfold should_skip_directory at this
    rw [List.any_eq_false] at this
    have h2 := this seg hexc
    exact h2 (List.elem_iff.mpr hseg)
  · intro hmem
    have h2 := hbase.2
    have h3 : EXCLUDED_FILES.contains (pyName p) = true := List.elem_iff.mpr hmem
    rw [h3] at h2
    cases h2

/-- Witness for C6 at a concrete tree containing an excluded directory and
an excluded filename. -/
theorem find_source_files_respects_exclusions_witness :
    (∀ seg ∈ pathParts ( "a.ts".data), seg ∉ EXCLUDED_DIRS) ∧
      pyName ( "a.ts".data) ∉ EXCLUDED_FILES :=
  find_source_files_respects_exclusions
    [ "a.ts".data, "node_modules/b.ts".data, "vite.config.ts".data]
    ( "a.ts".data) (by decide)

/- ------------------------------------------------------------------ -/
/- C2: idempotence.                                                    -/
/- ------------------------------------------------------------------ -/

theorem has_license_header_of_mpl (l : List Char)
    (h : "MPL".data <:+: l.take 500) : has_license_header l = true := by
  unfold has_license_header indicators
  simp only [List.any_cons, List.any_nil, Bool.or_eq_true, Bool.or_false]
  right; left
  exact (containsSub_iff _ _).mpr h

theorem mpl_take150 (H : List Char) (hH : 150 ≤ H.length)
    (hin : "MPL".data <:+: H.take 150) (c : List Char) :
    "MPL".data <:+: (H ++ c).take 150 := by
  rw [List.take_append_eq_append_take]
  have h0 : (150 : Nat) - H.length = 0 := by omega
  rw [h0, List.take_zero, List.append_nil]
  exact hin

theorem mpl_infix_take (A B : List Char) (hA : A.length ≤ 350)
    (hB : "MPL".data <:+: B.take 150) :
    "MPL".data <:+: (A ++ B).take 500 := by
  rw [List.take_append_eq_append_take]
  have hm : (150 : Nat) ≤ 500 - A.length := by omega
  have h1 : B.take 150 <+: B.take (500 - A.length) :=
    List.take_prefix_take_left _ hm
  have h2 : "MPL".data <:+: B.take (500 - A.length) :=
    List.IsInfix.trans hB (List.IsPrefix.isInfix h1)
  exact List.IsInfix.trans h2 (List.IsSuffix.isInfix (List.suffix_append _ _))

theorem hlh_prepend (H c : List Char) (hH : 150 ≤ H.length)
    (hin : "MPL".data <:+: H.take 150) :
    has_license_header (H ++ c) = true := by
  apply has_license_header_of_mpl
  have h150 := mpl_take150 H hH hin c
  have hpre : (H ++ c).take 150 <+: (H ++ c).take 500 :=
    List.take_prefix_take_left _ (by omega)
  exact List.IsInfix.trans h150 (List.IsPrefix.isInfix hpre)

theorem new_content_has_header (ext c : List Char)
    (hsup : ext ∈ SUPPORTED_SUFFIXES)
    (hde : ext = ".html".data → startsWithDoctype c = true →
      doctype_end c ≤ 300) :
    has_license_header (new_content ext c) = true := by
  have hmplts : "MPL".data <:+: HEADER_TS_JS.take 150 :=
    (containsSub_iff _ _).mp (by decide)
  have hmplhtml : "MPL".data <:+: HEADER_HTML.take 150 :=
    (containsSub_iff _ _).mp (by decide)
  have hmplcss : "MPL".data <:+: HEADER_CSS.take 150 :=
    (containsSub_iff _ _).mp (by decide)
  fin_cases hsup
  · unfold new_content
    rw [if_neg (by decide), show headerFor ( ".ts".data) = HEADER_TS_JS by decide]
    exact hlh_prepend _ c (by decide) hmplts
  · unfold new_content
    rw [if_neg (by decide), show headerFor ( ".js".data) = HEADER_TS_JS by decide]
    exact hlh_prepend _ c (by decide) hmplts
  · unfold new_content
    rw [if_neg (by decide), show headerFor ( ".tsx".data) = HEADER_TS_JS by decide]
    exact hlh_prepend _ c (by decide) hmplts
  · unfold new_content
    rw [if_neg (by decide), show headerFor ( ".jsx".data) = HEADER_TS_JS by decide]
    exact hlh_prepend _ c (by decide) hmplts
  · unfold new_content
    rw [if_pos rfl, show headerFor ( ".html".data) = HEADER_HTML by decide]
    by_cases hdoc : startsWithDoctype c = true
    · rw [if_pos hdoc]
      have hde' : doctype_end c ≤ 300 := hde rfl hdoc
      have heq : c.take (doctype_end c) ++
          '\n' :: (HEADER_HTML ++ pyLstrip (c.drop (doctype_end c))) =
          (c.take (doctype_end c) ++ [ '\n' ]) ++
            (HEADER_HTML ++ pyLstrip (c.drop (doctype_end c))) := by
        simp
      rw [heq]
      apply has_license_header_of_mpl
      apply mpl_infix_take
      · have : (c.take (doctype_end c)).length ≤ doctype_end c :=
          le_trans (le_of_eq (List.length_take _ _)) (min_le_left _ _)
        simp only [List.length_append, List.length_cons, List.length_nil]
        omega
      · exact mpl_take150 HEADER_HTML (by decide) hmplhtml _
    · rw [if_neg hdoc]
      exact hlh_prepend _ c (by decide) hmplhtml
  · unfold new_content
    rw [if_neg (by decide), show headerFor ( ".css".data) = HEADER_CSS by decide]
    exact hlh_prepend _ c (by decide) hmplcss

theorem add_header_skips_on_copyright (p : List Char) (bytes : List Nat)
    (dry_run backup write_ok : Bool)
    (h : containsSub ( "Copyright (c) 2025 Stephen Le".data)
      ((readText bytes).take 500) = true) :
    add_header_to_file p bytes dry_run backup write_ok = (false, []) := by
  have hh : has_license_header (readText bytes) = true := by
    unfold has_license_header indicators
    simp only [List.any_cons, List.any_nil, Bool.or_eq_true, Bool.or_false]
    right; right; right
    exact h
  unfold add_header_to_file
  split
  · rfl
  · split
    · rfl
    · simp [hh]

/-- C2 (amended): the second application of the per-file transform is the
identity — so a second run over the same tree changes nothing — for every
supported non-HTML file, for every HTML file without a leading DOCTYPE
marker, and for every HTML file whose DOCTYPE declaration ends by index
300; and any file whose first 500 characters contain the copyright
indicator is left untouched (no filesystem operation, False returned). -/
theorem run_idempotent_amended :
    (∀ ext c, ext ∈ SUPPORTED_SUFFIXES →
      (ext = ".html".data → startsWithDoctype c = true →
        doctype_end c ≤ 300) →
      processContent ext (processContent ext c) = processContent ext c) ∧
    (∀ (p : List Char) (bytes : List Nat) (dry_run backup write_ok : Bool),
      containsSub ( "Copyright (c) 2025 Stephen Le".data)
        ((readText bytes).take 500) = true →
      add_header_to_file p bytes dry_run backup write_ok = (false, [])) := by
  refine ⟨?_, add_header_skips_on_copyright⟩
  intro ext c hsup hde
  unfold processContent
  by_cases h : has_license_header c = true
  · simp [h]
  · have hF : has_license_header c = false := by
      simpa using h
    simp only [hF, Bool.false_eq_true, if_false]
    rw [if_pos (new_content_has_header ext c hsup hde)]

/-- Witness for C2's amended statement at a TypeScript file and at a file
that already contains the copyright line. -/
theorem run_idempotent_amended_witness :
    processContent ( ".ts".data) (processContent ( ".ts".data) exampleTs) =
      processContent ( ".ts".data) exampleTs ∧
    add_header_to_file examplePath
      (asciiBytes "// Copyright (c) 2025 Stephen Le\n") false false true =
      (false, []) :=
  ⟨run_idempotent_amended.1 ( ".ts".data) exampleTs (by decide)
      (fun h => absurd h (by decide)),
    run_idempotent_amended.2 examplePath
      (asciiBytes "// Copyright (c) 2025 Stephen Le\n") false false true
      (by decide)⟩

/-- An HTML content whose DOCTYPE declaration only closes at index 410:
the inserted header then sits beyond the 500-character window the next run
inspects. -/
def badHtml : List Char :=
  "<!DOCTYPE ".data ++ List.replicate 400 'a' ++ [ '>', 'x' ]

set_option maxHeartbeats 4000000 in
/-- Counterexample to C2 as stated: applying the transform twice to
`badHtml` is not the same as applying it once — the second run inserts the
header again, so the tool is not idempotent on every tree. -/
theorem run_idempotent_counterexample :
    processContent ( ".html".data) (processContent ( ".html".data) badHtml) ≠
      processContent ( ".html".data) badHtml := by
  decide
